import Mathlib

/-!
Verification development for the Demiurgo mission controller
(`demiurgo.py` + `arsenal.py`): a shallow embedding of the decision
parsing, policy gate, cache, triage, tool registry and mission loop,
with theorems settling the specification's claims.

Strings are modelled as `List Char` (`Str`); Python functions that can
raise are modelled with `Option`, where `none` is the raised exception.
-/

namespace Demiurgo

/-- Python strings, modelled as lists of characters. -/
abbrev Str := List Char

/-- ASCII whitespace, as recognised by Python's `str.split()` / `str.strip()`
on the ASCII strings this program handles. -/
def isSpace (c : Char) : Bool :=
  c = ' ' || c = '\t' || c = '\n' || c = '\r' || c = '\x0b' || c = '\x0c'

/-- Python `s.strip()`: drop leading and trailing whitespace. -/
def pyStrip (s : Str) : Str :=
  ((s.dropWhile isSpace).reverse.dropWhile isSpace).reverse

/-- Python `s.split()[0]`: the first whitespace-separated token of `s`.
`none` models the `IndexError` raised when `s.split()` is empty
(i.e. `s` is empty or all whitespace). -/
def firstToken (s : Str) : Option Str :=
  match s.dropWhile isSpace with
  | [] => none
  | c :: rest => some ((c :: rest).takeWhile (fun ch => !isSpace ch))

/-- The static tool catalog of `arsenal.py` (`ARSENAL`), verbatim. -/
def ARSENAL : List (Str × List (Str × Str)) :=
  [ ("Reconocimiento Pasivo".data,
      [ ("amass".data, "amass enum -passive -d {target_domain}".data),
        ("subfinder".data, "subfinder -d {target_domain} -silent".data) ]),
    ("Reconocimiento Activo y Escaneo".data,
      [ ("nmap_quick_scan".data, "nmap -sV --top-ports 1000 -T4 --open -Pn {target}".data),
        ("nmap_full_scan".data, "nmap -sV -p- -T4 --open -Pn {target}".data) ]),
    ("Enumeración y Análisis Web".data,
      [ ("whatweb".data, "whatweb -v --no-errors {target_url}".data),
        ("gobuster_common".data, "gobuster dir -u {target_url} -w /usr/share/seclists/Discovery/Web-Content/common.txt -t 50 -k".data),
        ("nikto_scan".data, "nikto -h {target_url} -Tuning 4,5,x".data) ]),
    ("Análisis de Vulnerabilidades Específicas".data,
      [ ("searchsploit".data, "searchsploit {keyword}".data) ]),
    ("Explotación".data,
      [ ("metasploit_exploit".data, "msfconsole -q -x \"{msf_commands}\"".data) ]) ]

/-- `_collect_allowed_executables`: the first token of every catalog command.
Every catalog command is a nonempty non-whitespace string, so Python's
`cmd.split()[0]` never raises and the `if first:` guard never filters;
the raising/empty cases are therefore modelled by `filterMap`. -/
def collectAllowedExecutables : List Str :=
  ARSENAL.foldl
    (fun acc sec => sec.2.foldl (fun acc2 t => match firstToken t.2 with
      | some f => acc2 ++ [f]
      | none => acc2) acc) []

/-- `ALLOWED_EXECUTABLES` (a Python set; only membership is used). -/
def ALLOWED_EXECUTABLES : List Str := collectAllowedExecutables

/-- `CACHEABLE_PREFIXES`. -/
def CACHEABLE_PREFIXES : List Str :=
  [ "nmap".data, "whatweb".data, "amass".data, "subfinder".data,
    "gobuster".data, "nikto".data, "searchsploit".data ]

/-- The chaining separators banned by `_is_command_allowed` and
`_safe_register_tool`: `[';', '&&', '|', '||']`. -/
def BANNED_SEPARATORS : List Str :=
  [ [';'], "&&".data, ['|'], "||".data ]

/-- Python `any(sep in cmd for sep in [';', '&&', '|', '||'])`:
substring containment of any banned separator. -/
def containsSeparator (cmd : Str) : Bool :=
  BANNED_SEPARATORS.any (fun sep => decide (sep <:+: cmd))

/-- `_is_command_allowed(cmd)`. `none` models the `IndexError` raised by
`cmd.strip().split()[0]` when `cmd` is empty or all whitespace;
`customTools` is the `self.custom_tools` dict (association list). -/
def isCommandAllowed (customTools : List (Str × Str)) (cmd : Str) : Option Bool :=
  if containsSeparator cmd then some false
  else match firstToken (pyStrip cmd) with
    | none => none
    | some executable =>
        some (decide (executable ∈ ALLOWED_EXECUTABLES) ||
              decide (executable ∈ customTools.map Prod.fst))

/-- Python `dict.get(k)` on an insertion-ordered dict (association list,
every key at most once). -/
def dictGet (d : List (Str × Str)) (k : Str) : Option Str :=
  (d.find? (fun p => decide (p.1 = k))).map Prod.snd

/-- Python `d[k] = v`: overwrite in place if the key exists (keeping its
position), otherwise append. -/
def dictSet (d : List (Str × Str)) (k : Str) (v : Str) : List (Str × Str) :=
  if (d.find? (fun p => decide (p.1 = k))).isSome
  then d.map (fun p => if p.1 = k then (k, v) else p)
  else d ++ [(k, v)]

/-- `_cache_lookup(cmd)`. Outer `none` models the `IndexError` from
`cmd.split()[0]` on an empty/all-whitespace command; the inner option is
the Python return value (`None` on non-cacheable or missing key). -/
def cacheLookup (cache : List (Str × Str)) (cmd : Str) : Option (Option Str) :=
  match firstToken cmd with
  | none => none
  | some first =>
      if first ∈ CACHEABLE_PREFIXES then some (dictGet cache cmd) else some none

/-- `_cache_store(cmd, value)`: the updated cache. `none` models the
`IndexError` from `cmd.split()[0]`; a non-cacheable leading token leaves
the cache unchanged. -/
def cacheStore (cache : List (Str × Str)) (cmd value : Str) :
    Option (List (Str × Str)) :=
  match firstToken cmd with
  | none => none
  | some first =>
      if first ∈ CACHEABLE_PREFIXES then some (dictSet cache cmd value) else some cache

/-- The scanning loop of `_extract_json_block`: walk the text from the first
`\x7b`, incrementing the depth on `\x7b` and decrementing on `\x7d` (the source
decrements and then compares with 0, hence `depth - 1 = 0` over `Int`);
return the consumed characters when the depth returns to zero. -/
def scanBlock : Str → Int → Str → Option Str
  | [], _, _ => none
  | c :: rest, depth, acc =>
    if c = '{' then scanBlock rest (depth + 1) (acc ++ [c])
    else if c = '}' then
      if depth - 1 = 0 then some (acc ++ [c])
      else scanBlock rest (depth - 1) (acc ++ [c])
    else scanBlock rest depth (acc ++ [c])

/-- `text.find('{')` followed by slicing: the suffix of the text starting at
the first opening brace, or `none` when there is none. -/
def findOpen : Str → Option Str
  | [] => none
  | c :: rest => if c = '{' then some (c :: rest) else findOpen rest

/-- `_extract_json_block(text)`: the first balanced brace block, by depth
counting from the first opening brace; `none` when no opening brace exists
or the depth never returns to zero. -/
def extractJsonBlock (text : Str) : Option Str :=
  match findOpen text with
  | none => none
  | some s => scanBlock s 0 []

/-- Python set `add` on a deduplicated list: insert only if absent
(`service_fingerprints` is a `set`; only membership, cardinality and the
sorted listing are observable). -/
def fpsAdd (fps : List Str) (x : Str) : List Str :=
  if x ∈ fps then fps else fps ++ [x]

/-- One match attempt of the pattern
`(\d+/tcp|\d+/udp)\s+open\s+(\S+)\s+(.*)` at a fixed position: the
three capture groups and the text remaining after the match. The
whitespace class `\s` matches the newline, so the `\s+` runs may cross
line boundaries; `\S+` excludes all whitespace; `(.*)` runs to the end
of the line it starts on (the dot does not match a newline). Each greedy
run is followed by a literal or by a mandatory run of the complementary
class, so backtracking into a run can never produce a match that maximal
munch misses: maximal munch is exact. -/
def matchPortFrom (s : Str) : Option ((Str × Str × Str) × Str) :=
  let digits := s.takeWhile Char.isDigit
  let r0 := s.dropWhile Char.isDigit
  if digits = [] then none
  else
    let proto? : Option Str :=
      if "/tcp".data <+: r0 then some "/tcp".data
      else if "/udp".data <+: r0 then some "/udp".data
      else none
    match proto? with
    | none => none
    | some proto =>
      let r1 := r0.drop 4
      let r2 := r1.dropWhile isSpace
      if r1.takeWhile isSpace = [] then none
      else if "open".data <+: r2 then
        let r3 := r2.drop 4
        let r4 := r3.dropWhile isSpace
        if r3.takeWhile isSpace = [] then none
        else
          let svc := r4.takeWhile (fun c => !isSpace c)
          let r5 := r4.dropWhile (fun c => !isSpace c)
          if svc = [] then none
          else if r5.takeWhile isSpace = [] then none
          else
            let r6 := r5.dropWhile isSpace
            let ver := r6.takeWhile (fun c => c ≠ '\n')
            some ((digits ++ proto, svc, ver), r6.drop ver.length)
      else none

/-- The scan of `re.findall(..., re.MULTILINE)` with the `^`-anchored port
pattern: attempt a match only at the start of the text and right after
each newline; on success emit the groups and resume right after the match
(never a line start: the version capture's last character is not a
newline, and when the capture is empty the match ends the text, since the
final maximal whitespace run leaves no leading whitespace), otherwise
advance one character. The pattern cannot match the empty string. The
recursion is structured on a fuel that starts at the text's length, which
always suffices because every step consumes at least one character —
`findallPortsGo_fuel` proves any fuel at least the text's length gives
the same result. -/
def findallPortsGo : Nat → Str → Bool → List (Str × Str × Str)
  | 0, _, _ => []
  | _ + 1, [], _ => []
  | fuel + 1, c :: rest, lineStart =>
    if lineStart then
      match matchPortFrom (c :: rest) with
      | some (g, remaining) => g :: findallPortsGo fuel remaining false
      | none => findallPortsGo fuel rest (c = '\n')
    else findallPortsGo fuel rest (c = '\n')

/-- `re.findall(r'^(\d+/tcp|\d+/udp)\s+open\s+(\S+)\s+(.*)', out,
re.MULTILINE)`: all anchored matches over the whole output, left to
right, non-overlapping. -/
def findallPorts (out : Str) : List (Str × Str × Str) :=
  findallPortsGo out.length out true

/-- The fingerprint added per match: `f"{p} {s} {v.strip()}"[:120]`. -/
def mkFingerprint (m : Str × Str × Str) : Str :=
  (m.1 ++ ' ' :: m.2.1 ++ ' ' :: pyStrip m.2.2).take 120

/-- The per-match report line: `f"- {p} {s} {v}"` (version not stripped). -/
def portLine (m : Str × Str × Str) : Str :=
  "- ".data ++ m.1 ++ ' ' :: m.2.1 ++ ' ' :: m.2.2

/-- `_triage_output(tool_output, tool_name)` together with its side effect
on `self.service_fingerprints`: returns the triaged text and the updated
fingerprint set. -/
def triageOutput (tool_output tool_name : Str) (fps : List Str) :
    Str × List Str :=
  if tool_output.all isSpace then
    ("La herramienta no produjo ninguna salida.".data, fps)
  else if decide ("nmap".data <:+: tool_name) then
    let open_ports := findallPorts tool_output
    if open_ports = [] then ("Nmap no encontró puertos abiertos.".data, fps)
    else
      ("Puertos Abiertos Encontrados:\n".data ++
         (List.intercalate "\n".data (open_ports.map portLine)),
       open_ports.foldl (fun acc m => fpsAdd acc (mkFingerprint m)) fps)
  else if tool_output.length > 2000 then
    (tool_output.take 2000 ++ "...".data, fps)
  else (tool_output, fps)

/-- `re.match(r'^[a-zA-Z0-9_\-]+$', name)`: a nonempty run of ASCII
letters, digits, underscore and hyphen covering the whole name — except
that `$` (without `re.MULTILINE`) also matches just before a newline that
ends the string, so one trailing newline is tolerated. -/
def isValidToolName (name : Str) : Bool :=
  let core := if name.getLast? = some '\n' then name.dropLast else name
  core ≠ [] && core.all (fun c => c.isAlpha || c.isDigit || c = '_' || c = '-')

/-- `_safe_register_tool(name, template)`: the returned message and the
updated `custom_tools` dict. `none` models the `IndexError` raised by the
(unused) `base = template.strip().split()[0]` when the template is empty
or all whitespace. File persistence is an external side effect outside
the model. -/
def safeRegisterTool (customTools : List (Str × Str)) (name template : Str) :
    Option (Str × List (Str × Str)) :=
  if containsSeparator template then
    some ("Plantilla rechazada: contiene separadores peligrosos.".data, customTools)
  else
    match firstToken (pyStrip template) with
    | none => none
    | some _base =>
      if isValidToolName name then
        some ("Herramienta '".data ++ name ++ "' registrada localmente.".data,
              dictSet customTools name template)
      else some ("Nombre de herramienta inválido.".data, customTools)

/-- A shell action object (`accion_propuesta` value): a dict whose fields
`tipo`, `herramienta`, `payload` are read with `.get`. -/
structure Action where
  tipo : Option Str
  herramienta : Option Str
  payload : Option Str
deriving DecidableEq

/-- The value of one of the decision dict's two action keys, as the loop
observes it: absent, present but not a dict (truthy non-dict), a falsy
(empty) dict, or a proper action dict. -/
inductive JField where
  | missing
  | notDict
  | emptyDict
  | action (a : Action)
deriving DecidableEq

/-- A decoded oracle decision, keeping only what the loop branches on:
the `accion_propuesta` and `accion_a_ejecutar` fields (the strategic
thought and counter-measure fields are carried only into reports, which
no claim inspects). -/
structure Decision where
  accion_propuesta : JField
  accion_a_ejecutar : JField
deriving DecidableEq

/-- `decision.get("accion_propuesta") or decision.get("accion_a_ejecutar")`
followed by `if not action_to_execute or not isinstance(action_to_execute,
dict)`: Python `or` takes the first truthy value (a non-dict truthy value
is taken and then fails the `isinstance` check; a falsy value — `None` or
an empty dict — falls through to the second key). -/
def normalizeAction : JField → JField → Option Action
  | .action a, _ => some a
  | .notDict, _ => none
  | _, .action a => some a
  | _, _ => none

/-- A mission-log entry (`self.mission_log` holds dicts; the four shapes
the controller appends, plus the constructor-time campaign start). -/
inductive MissionEvent where
  | campaignStart (objetivo : Str)
  | formatFailure (respuesta_bruta : Decision)
  | commanderOverride (directiva : Str) (plan_anterior : Decision)
  | actionExecuted (decision : Decision) (resultado : Str)
deriving DecidableEq

/-- The controller state threaded through `mission_loop` (the loop's
locals plus the `self` fields it reads and writes). -/
structure MissionState where
  last_output : Str
  commander_directive : Option Str
  mission_log : List MissionEvent
  service_fingerprints : List Str
  custom_tools : List (Str × Str)
  cache : List (Str × Str)
  max_log_entries : Nat
deriving DecidableEq

/-- Python `l[-k:]`: the last `k` elements for `k > 0`; for `k = 0` the
slice `l[-0:] = l[0:]` is the whole list. -/
def tailSlice (l : List α) (k : Nat) : List α :=
  if k = 0 then l else l.drop (l.length - k)

/-- Lexicographic order on code points, as Python `sorted` compares
strings. -/
def leStr : Str → Str → Bool
  | [], _ => true
  | _ :: _, [] => false
  | a :: xs, b :: ys =>
    if a.toNat < b.toNat then true
    else if b.toNat < a.toNat then false
    else leStr xs ys

/-- Python `sorted(...)` on a set of strings. -/
def sortStrs (l : List Str) : List Str :=
  List.insertionSort (fun a b => leStr a b = true) l

/-- The context dict built at the top of every cycle and serialized into
the oracle prompt. -/
structure Context where
  resumen_mision : List MissionEvent
  ultimo_resultado : Str
  directiva_comandante : Option Str
  huella_servicios : List Str
  herramientas_dinamicas : List Str
deriving DecidableEq

/-- The context construction: `self.mission_log[-3:]`, the last result,
the pending directive, `list(sorted(self.service_fingerprints))[:50]`,
and the dynamic tool names. -/
def buildContext (st : MissionState) : Context :=
  { resumen_mision := tailSlice st.mission_log 3
    ultimo_resultado := st.last_output
    directiva_comandante := st.commander_directive
    huella_servicios := (sortStrs st.service_fingerprints).take 50
    herramientas_dinamicas := st.custom_tools.map Prod.fst }

/-- `_web_search_stub(query)`: pure string formatting of two simulated
results. The exact `json.dumps` rendering is abbreviated to the enclosed
data; no claim inspects this branch's text. -/
def webSearchStub (query : Str) : Str :=
  "Resultado simulado 1 para '".data ++ query ++
    "' https://example.com/1 Resumen aproximado. ".data ++
  "Resultado simulado 2 para '".data ++ query ++
    "' https://example.com/2 Otro ángulo contextual.".data

/-- `str(e)` of the `IndexError` raised by `split()[0]` on an empty list,
as caught and formatted by `execute_action`'s handler. -/
def errorCriticoIndex : Str :=
  "Error Crítico durante la ejecución: list index out of range".data

/-- `payload.split('::', 1)`: split at the first occurrence of `::`;
`none` when the payload holds no `::`. -/
def splitOnceColons : Str → Option (Str × Str)
  | [] => none
  | [_] => none
  | c1 :: c2 :: rest =>
      if c1 = ':' ∧ c2 = ':' then some ([], rest)
      else match splitOnceColons (c2 :: rest) with
        | some (l, r) => some (c1 :: l, r)
        | none => none

/-- The result of `execute_action`: the returned string, the state after
its side effects (cache, custom tools, fingerprints), and whether a child
process was spawned (`subprocess.run` reached). -/
structure ExecResult where
  result : Str
  st : MissionState
  ran : Bool
deriving DecidableEq

/-- `execute_action(action)`. `runner` abstracts
`subprocess.run(payload, shell=True, ...)`, giving the combined
`stdout + stderr` text; exceptions inside the `try` (the `IndexError` of
the policy/cache token extraction) are caught and formatted, as in the
source. -/
def executeAction (runner : Str → Str) (st : MissionState) (a : Action) :
    ExecResult :=
  let fail (msg : Str) : ExecResult := ⟨msg, st, false⟩
  match a.payload with
  | none => fail "Error: No se proporcionó 'payload' en la acción.".data
  | some p =>
    if p = [] then fail "Error: No se proporcionó 'payload' en la acción.".data
    else if a.tipo = some "COMANDO_SHELL".data then
      match isCommandAllowed st.custom_tools p with
      | none => fail errorCriticoIndex
      | some false =>
          fail "Comando rechazado por política de seguridad local (no permitido).".data
      | some true =>
        let fresh : ExecResult :=
          let out := runner p
          let tr := triageOutput out (a.herramienta.getD "shell".data) st.service_fingerprints
          match cacheStore st.cache p tr.1 with
          | some cache' =>
              ⟨tr.1, { st with cache := cache', service_fingerprints := tr.2 }, true⟩
          | none => ⟨errorCriticoIndex, { st with service_fingerprints := tr.2 }, true⟩
        match cacheLookup st.cache p with
        | none => fail errorCriticoIndex
        | some (some v) => if v = [] then fresh else ⟨v ++ "\n(CACHE)".data, st, false⟩
        | some none => fresh
    else if a.tipo = some "BUSQUEDA_WEB_NATIVA".data then fail (webSearchStub p)
    else if a.tipo = some "EJECUCION_DE_CODIGO_NATIVA".data then
      match splitOnceColons p with
      | some (n, t) =>
        match safeRegisterTool st.custom_tools (pyStrip n) (pyStrip t) with
        | some (msg, tools') => ⟨msg, { st with custom_tools := tools' }, false⟩
        | none => fail errorCriticoIndex
      | none =>
          fail "Formato para creación de herramienta inválido. Usa NOMBRE::COMANDO".data
    else
      fail ("Acción '".data ++ (a.tipo.getD "None".data) ++
            "' no implementada para ejecución directa.".data)

/-- `get_ai_decision`'s parsing pipeline on the oracle's reply text:
`_extract_json_block`, then `json.loads` + field reading, abstracted as
`jsonLoads` (an external library; `none` is a decode failure or a falsy
result, either of which makes `get_ai_decision` return `None`). When no
block is extracted the raised `ValueError` is caught and `None` is
returned, so `jsonLoads` is never consulted. -/
def getAiDecision (jsonLoads : Str → Option Decision) (raw : Str) :
    Option Decision :=
  match extractJsonBlock raw with
  | none => none
  | some block => jsonLoads block

/-- Python `str.lower()` (ASCII, as applied to the operator's reply). -/
def pyLower (s : Str) : Str := s.map Char.toLower

/-- The per-cycle external inputs: the oracle's raw reply, the operator's
authorization reply, and the directive text read when the operator
answers `a`. -/
structure CycleInput where
  oracle_reply : Str
  auth : Str
  directive : Str
deriving DecidableEq

/-- The outcome of one loop body iteration: continue with a new state, or
leave the loop (`break`). -/
inductive StepResult where
  | next (st : MissionState)
  | terminated (st : MissionState)
deriving DecidableEq

/-- The corrective message fed back after an invalid structured action. -/
def correctiveMessage : Str :=
  "La última respuesta no contenía una 'accion_propuesta' válida. Reformula tu plan.".data

/-- The execute-branch log update: `self.mission_log.append(entry)`
followed by `if len(self.mission_log) > self._max_log_entries:
self.mission_log = self.mission_log[-self._max_log_entries:]`. -/
def appendBounded (log : List MissionEvent) (ev : MissionEvent) (n : Nat) :
    List MissionEvent :=
  let l := log ++ [ev]
  if l.length > n then tailSlice l n else l

/-- One iteration of the `while True` body of `mission_loop`: build the
context (sent to the oracle, whose reply is the external input), reset
the commander directive, parse the decision (`break` on `None`), recover
from a missing/invalid action, otherwise ask for authorization (`a` =
refine, `s` = execute with post-append truncation, anything else =
terminate). -/
def missionStep (jsonLoads : Str → Option Decision) (runner : Str → Str)
    (inp : CycleInput) (st0 : MissionState) : StepResult :=
  let _context := buildContext st0
  let st := { st0 with commander_directive := none }
  match getAiDecision jsonLoads inp.oracle_reply with
  | none => .terminated st
  | some decision =>
    match normalizeAction decision.accion_propuesta decision.accion_a_ejecutar with
    | none =>
        .next { st with
          last_output := correctiveMessage
          mission_log := st.mission_log ++ [.formatFailure decision] }
    | some action =>
      if pyLower inp.auth = ['a'] then
        .next { st with
          commander_directive := some inp.directive
          last_output :=
            "El Comandante ha intervenido. Nueva directiva: '".data ++ inp.directive ++
              "'. Se debe refinar el plan anterior.".data
          mission_log := st.mission_log ++ [.commanderOverride inp.directive decision] }
      else if pyLower inp.auth = ['s'] then
        let ex := executeAction runner st action
        .next { ex.st with
          last_output := ex.result
          mission_log :=
            appendBounded ex.st.mission_log (.actionExecuted decision ex.result)
              st.max_log_entries }
      else .terminated st

/-- The `while True` loop of `mission_loop`, driven by the stream of
external inputs; returns the final state, the number of body iterations
run, and whether the loop left by `break` (`true`) or the model's input
stream ran out while the loop would have continued (`false`). -/
def missionLoop (jsonLoads : Str → Option Decision) (runner : Str → Str) :
    List CycleInput → MissionState → MissionState × Nat × Bool
  | [], st => (st, 0, false)
  | inp :: rest, st =>
    match missionStep jsonLoads runner inp st with
    | .terminated st' => (st', 1, true)
    | .next st' =>
        let r := missionLoop jsonLoads runner rest st'
        (r.1, r.2.1 + 1, r.2.2)

/-- The initial controller state for target `t`: the campaign-start log
entry, the seeded last result, defaults elsewhere (dynamic arsenal file
absent). -/
def initialState (target : Str) : MissionState :=
  { last_output := "El objetivo inicial es ".data ++ target
    commander_directive := none
    mission_log := [.campaignStart target]
    service_fingerprints := []
    custom_tools := []
    cache := []
    max_log_entries := 200 }

/-- The `__main__` dispatch on `--once`: `if args.once:
agent.mission_loop() else: agent.mission_loop()` — both branches invoke
the same unbounded loop. -/
def mainDispatch (once : Bool) (jsonLoads : Str → Option Decision)
    (runner : Str → Str) (inputs : List CycleInput) (st : MissionState) :
    MissionState × Nat × Bool :=
  if once then missionLoop jsonLoads runner inputs st
  else missionLoop jsonLoads runner inputs st

/-- A decision proposing the quick nmap scan (used by the concrete loop
runs below). -/
def nmapShellDecision : Decision :=
  ⟨.action ⟨some "COMANDO_SHELL".data, some "nmap_quick_scan".data,
            some "nmap -sV 10.0.0.5".data⟩, .missing⟩

/-- A decode stub returning `nmapShellDecision` for every block. -/
def jlNmapShell : Str → Option Decision := fun _ => some nmapShellDecision

/-- A stubbed process producing one nmap-style open-port line. -/
def nmapOutputRunner : Str → Str := fun _ => "80/tcp open http Apache/2.4.41".data

/-- A cycle input whose operator reply approves execution. -/
def approveInput : CycleInput := ⟨"\x7b\"x\":1\x7d".data, "s".data, []⟩

/-- Brace depth contribution of one character. -/
def braceDelta (c : Char) : Int :=
  if c = '{' then 1 else if c = '}' then -1 else 0

/-- Net brace depth of a text. -/
def depthOf (s : Str) : Int := (s.map braceDelta).sum

/-- A minimal balanced brace block: starts with an opening brace, has net
depth zero, and every proper nonempty Prefix has positive depth (so the
depth first returns to zero exactly at the end). -/
def IsBalancedBlock (b : Str) : Prop :=
  b.head? = some '{' ∧ depthOf b = 0 ∧
    ∀ i ∈ List.range b.length, i ≠ 0 → 0 < depthOf (b.take i)

instance (b : Str) : Decidable (IsBalancedBlock b) := by
  unfold IsBalancedBlock; infer_instance

theorem depthOf_nil : depthOf [] = 0 := rfl

theorem depthOf_cons (c : Char) (l : Str) :
    depthOf (c :: l) = braceDelta c + depthOf l := by
  simp [depthOf]

/-- Every proper nonempty Prefix of a balanced block has positive depth. -/
theorem IsBalancedBlock.depth_pos {b p : Str} (hb : IsBalancedBlock b)
    (hp : p <+: b) (hne : p ≠ b) (hnil : p ≠ []) : 0 < depthOf p := by
  have hlen : p.length < b.length := by
    rcases Nat.lt_or_ge p.length b.length with h | h
    · exact h
    · exact absurd (hp.eq_of_length (Nat.le_antisymm hp.length_le h)) hne
  have htake : p = b.take p.length := List.prefix_iff_eq_take.mp hp
  have := hb.2.2 p.length (List.mem_range.mpr hlen)
    (by intro h0; exact hnil (by simpa [h0] using htake))
  rw [htake]; exact this

/-- Cons preserves the Prefix relation. -/
theorem cons_prefix_cons_of {α : Type} {c : α} {p l : List α} (hp : p <+: l) :
    (c :: p) <+: (c :: l) := by
  obtain ⟨t, ht⟩ := hp
  exact ⟨t, by rw [List.cons_append, ht]⟩

/-- The scanning loop consumes exactly a suffix whose depth profile stays
positive until it finally returns the running depth to zero, whatever
trailing noise follows. -/
theorem scanBlock_spec :
    ∀ (rest : Str) (d : Int) (noise acc : Str),
      0 < d → d + depthOf rest = 0 →
      (∀ p, p <+: rest → p ≠ rest → 0 < d + depthOf p) →
      scanBlock (rest ++ noise) d acc = some (acc ++ rest)
  | [], d, noise, acc => by
    intro hd htot _
    rw [depthOf_nil] at htot; omega
  | c :: rest', d, noise, acc => by
    intro hd htot hpre
    rw [depthOf_cons] at htot
    by_cases hc : c = '{'
    · subst hc
      have hdelta : braceDelta '{' = 1 := by decide
      rw [hdelta] at htot
      have hrec := scanBlock_spec rest' (d + 1) noise (acc ++ ['{'])
        (by omega) (by omega)
        (by
          intro p hp hne
          have h := hpre ('{' :: p) (cons_prefix_cons_of hp) (by simpa using hne)
          rw [depthOf_cons, hdelta] at h
          omega)
      have hstep : scanBlock (('{' :: rest') ++ noise) d acc
          = scanBlock (rest' ++ noise) (d + 1) (acc ++ ['{']) := by
        simp [scanBlock]
      rw [hstep, hrec, List.append_assoc]
      rfl
    · by_cases hc2 : c = '}'
      · subst hc2
        have hdelta : braceDelta '}' = -1 := by decide
        rw [hdelta] at htot
        cases rest' with
        | nil =>
          have hone : d - 1 = 0 := by rw [depthOf_nil] at htot; omega
          have hstep : scanBlock (('}' :: []) ++ noise) d acc = some (acc ++ ['}']) := by
            simp [scanBlock, hone]
          simpa using hstep
        | cons x xs =>
          have hproper : 0 < d + depthOf ['}'] := by
            refine hpre ['}'] ⟨x :: xs, rfl⟩ ?_
            intro h; exact absurd (congrArg List.length h) (by simp)
          rw [depthOf_cons, depthOf_nil, hdelta] at hproper
          have hrec := scanBlock_spec (x :: xs) (d - 1) noise (acc ++ ['}'])
            (by omega) (by omega)
            (by
              intro p hp hne
              have h := hpre ('}' :: p) (cons_prefix_cons_of hp) (by simpa using hne)
              rw [depthOf_cons, hdelta] at h
              omega)
          have hstep : scanBlock (('}' :: x :: xs) ++ noise) d acc
              = scanBlock ((x :: xs) ++ noise) (d - 1) (acc ++ ['}']) := by
            have hne1 : ¬ (('}' : Char) = '{') := by decide
            have hne2 : ¬ (d - 1 = 0) := by omega
            simp [scanBlock, hne1, hne2]
          rw [hstep, hrec, List.append_assoc]
          rfl
      · have hdelta : braceDelta c = 0 := by simp [braceDelta, hc, hc2]
        rw [hdelta] at htot
        have hrec := scanBlock_spec rest' d noise (acc ++ [c])
          hd (by omega)
          (by
            intro p hp hne
            have h := hpre (c :: p) (cons_prefix_cons_of hp) (by simpa using hne)
            rw [depthOf_cons, hdelta] at h
            omega)
        have hstep : scanBlock ((c :: rest') ++ noise) d acc
            = scanBlock (rest' ++ noise) d (acc ++ [c]) := by
          simp [scanBlock, hc, hc2]
        rw [hstep, hrec, List.append_assoc]
        rfl

/-- A text without an opening brace has no scan start. -/
theorem findOpen_eq_none {text : Str} (h : '{' ∉ text) : findOpen text = none := by
  induction text with
  | nil => rfl
  | cons c rest ih =>
    have hc : ¬ (c = '{') := fun hc => h (hc ▸ List.mem_cons_self c rest)
    simp only [findOpen, if_neg hc]
    exact ih (fun hm => h (List.mem_cons_of_mem c hm))

/-- Brace-free leading noise is skipped by the search for the first
opening brace. -/
theorem findOpen_append {noise l : Str} (h : '{' ∉ noise) :
    findOpen (noise ++ l) = findOpen l := by
  induction noise with
  | nil => rfl
  | cons c rest ih =>
    have hc : ¬ (c = '{') := fun hc => h (hc ▸ List.mem_cons_self c rest)
    simp only [List.cons_append, findOpen, if_neg hc]
    exact ih (fun hm => h (List.mem_cons_of_mem c hm))

/-- C4: for every text made of a minimal balanced brace block surrounded by
noise — arbitrary on the right, brace-free on the left, so the block starts
at the text's first opening brace — `_extract_json_block` returns exactly
that block; and for every text with no opening brace it returns `None`
(`get_ai_decision` then raises and catches `ValueError`, a ParseError),
never a partial block. -/
theorem C4_extract_minimal_balanced_block :
    (∀ noise1 b noise2 : Str, '{' ∉ noise1 → IsBalancedBlock b →
        extractJsonBlock (noise1 ++ b ++ noise2) = some b) ∧
    (∀ text : Str, '{' ∉ text → extractJsonBlock text = none) := by
  constructor
  · intro noise1 b noise2 hn hb
    have hhead := hb.1
    have htot := hb.2.1
    obtain ⟨b', rfl⟩ : ∃ b', b = '{' :: b' := by
      cases b with
      | nil => simp at hhead
      | cons c bs => exact ⟨bs, by simpa using congrArg (fun o => o.getD 'x') hhead⟩
    rw [List.append_assoc, extractJsonBlock, findOpen_append hn]
    have hfo : findOpen (('{' :: b') ++ noise2) = some ('{' :: (b' ++ noise2)) := by
      simp [findOpen]
    rw [hfo]
    show scanBlock ('{' :: (b' ++ noise2)) 0 [] = some ('{' :: b')
    have hstep : scanBlock ('{' :: (b' ++ noise2)) 0 [] =
        scanBlock (b' ++ noise2) 1 ['{'] := by
      simp [scanBlock]
    rw [hstep]
    have hdelta : braceDelta '{' = 1 := by decide
    rw [depthOf_cons, hdelta] at htot
    have := scanBlock_spec b' 1 noise2 ['{'] (by omega) (by omega)
      (fun p hp hne => by
        have h := hb.depth_pos (p := '{' :: p) (cons_prefix_cons_of hp)
          (by simpa using hne) (by simp)
        rw [depthOf_cons, hdelta] at h
        omega)
    rw [this]
    rfl
  · intro text h
    rw [extractJsonBlock, findOpen_eq_none h]

theorem C4_extract_minimal_balanced_block_witness :
    ('{' ∉ "xx ".data ∧ IsBalancedBlock "\x7b\"a\":\x7b\"b\":1\x7d\x7d".data ∧
      extractJsonBlock ("xx ".data ++ "\x7b\"a\":\x7b\"b\":1\x7d\x7d".data ++ " zz".data) =
        some "\x7b\"a\":\x7b\"b\":1\x7d\x7d".data) ∧
    ('{' ∉ "sin llaves".data ∧ extractJsonBlock "sin llaves".data = none) :=
  ⟨⟨by decide, by decide,
    C4_extract_minimal_balanced_block.1 "xx ".data _ " zz".data (by decide) (by decide)⟩,
   by decide, C4_extract_minimal_balanced_block.2 "sin llaves".data (by decide)⟩

/-- C1: `_is_command_allowed` rejects any payload containing a banned
separator regardless of its leading token; otherwise, on a payload with a
first whitespace-separated token, it accepts exactly when that token is a
static catalog executable or a dynamically registered tool name; and the
three concrete examples: `nmap -sV 127.0.0.1` allowed, `foobar --x`
rejected, and after registering `mi_tool` the payload `mi_tool --x` is
allowed. -/
theorem C1_policy_allowlist :
    (∀ (ct : List (Str × Str)) (cmd : Str), containsSeparator cmd = true →
        isCommandAllowed ct cmd = some false) ∧
    (∀ (ct : List (Str × Str)) (cmd t : Str), containsSeparator cmd = false →
        firstToken (pyStrip cmd) = some t →
        (isCommandAllowed ct cmd = some true ↔
          (t ∈ ALLOWED_EXECUTABLES ∨ t ∈ ct.map Prod.fst))) ∧
    isCommandAllowed [] "nmap -sV 127.0.0.1".data = some true ∧
    isCommandAllowed [] "foobar --x".data = some false ∧
    safeRegisterTool [] "mi_tool".data "whatweb {target}".data =
      some ("Herramienta 'mi_tool' registrada localmente.".data,
            [("mi_tool".data, "whatweb {target}".data)]) ∧
    isCommandAllowed [("mi_tool".data, "whatweb {target}".data)]
      "mi_tool --x".data = some true := by
  refine ⟨?_, ?_, by decide, by decide, by decide, by decide⟩
  · intro ct cmd h
    rw [isCommandAllowed, if_pos h]
  · intro ct cmd t hsep htok
    rw [isCommandAllowed, if_neg (by simp [hsep]), htok]
    simp

theorem C1_policy_allowlist_witness :
    isCommandAllowed [] "nmap -sV 127.0.0.1; id".data = some false ∧
    (isCommandAllowed [] "nmap -sV 127.0.0.1".data = some true ↔
      ("nmap".data ∈ ALLOWED_EXECUTABLES ∨
        "nmap".data ∈ ([] : List (Str × Str)).map Prod.fst)) :=
  ⟨C1_policy_allowlist.1 [] "nmap -sV 127.0.0.1; id".data (by decide),
   C1_policy_allowlist.2.1 [] "nmap -sV 127.0.0.1".data "nmap".data
     (by decide) (by decide)⟩

/-- C8: on an empty or all-whitespace payload (which contains none of the
banned separators) `_is_command_allowed` does not return a boolean: it
raises `IndexError` from `cmd.strip().split()[0]` — the policy check is
not total over strings. -/
theorem C8_policy_raises_on_whitespace :
    ∀ (ct : List (Str × Str)) (cmd : Str), (∀ c ∈ cmd, isSpace c = true) →
      isCommandAllowed ct cmd = none := by
  intro ct cmd h
  have hsep : containsSeparator cmd = false := by
    rw [containsSeparator, List.any_eq_false]
    intro sep hsep hdec
    have hinf : sep <:+: cmd := of_decide_eq_true hdec
    have hsub := hinf.subset
    rw [BANNED_SEPARATORS] at hsep
    fin_cases hsep
    · exact absurd (h ';' (hsub (by decide))) (by decide)
    · exact absurd (h '&' (hsub (by decide))) (by decide)
    · exact absurd (h '|' (hsub (by decide))) (by decide)
    · exact absurd (h '|' (hsub (by decide))) (by decide)
  have hdrop : cmd.dropWhile isSpace = [] :=
    List.dropWhile_eq_nil_iff.mpr h
  rw [isCommandAllowed, if_neg (by simp [hsep]), pyStrip, hdrop]
  rfl

theorem C8_policy_raises_on_whitespace_witness :
    isCommandAllowed [] "  \t ".data = none ∧ isCommandAllowed [] [] = none :=
  ⟨C8_policy_raises_on_whitespace [] "  \t ".data (by decide),
   C8_policy_raises_on_whitespace [] [] (by decide)⟩

/-- C6: cache behaviour is keyed on the command's leading token. For a
cacheable leading token: lookup on the empty cache gives none; after a
store, lookup of the identical command string gives the stored value and
lookup of any different command string gives none. For a non-cacheable
leading token: store is a no-op and lookup always gives none (on any
cache, so in particular after a store). -/
theorem C6_cache_keyed_on_leading_token :
    (∀ cmd t : Str, firstToken cmd = some t → t ∈ CACHEABLE_PREFIXES →
        cacheLookup [] cmd = some none) ∧
    (∀ cmd t v : Str, firstToken cmd = some t → t ∈ CACHEABLE_PREFIXES →
        cacheStore [] cmd v = some [(cmd, v)] ∧
        cacheLookup [(cmd, v)] cmd = some (some v)) ∧
    (∀ cmd cmd' t' v : Str, cmd' ≠ cmd → firstToken cmd' = some t' →
        cacheLookup [(cmd, v)] cmd' = some none) ∧
    (∀ (cache : List (Str × Str)) (cmd t v : Str), firstToken cmd = some t →
        t ∉ CACHEABLE_PREFIXES →
        cacheStore cache cmd v = some cache ∧ cacheLookup cache cmd = some none) := by
  refine ⟨?_, ?_, ?_, ?_⟩
  · intro cmd t htok hmem
    rw [cacheLookup, htok]
    show (if t ∈ CACHEABLE_PREFIXES then some (dictGet [] cmd) else some none) = some none
    rw [if_pos hmem]
    rfl
  · intro cmd t v htok hmem
    constructor
    · rw [cacheStore, htok]
      show (if t ∈ CACHEABLE_PREFIXES then some (dictSet [] cmd v) else some [])
          = some [(cmd, v)]
      rw [if_pos hmem]
      rfl
    · rw [cacheLookup, htok]
      show (if t ∈ CACHEABLE_PREFIXES then some (dictGet [(cmd, v)] cmd) else some none)
          = some (some v)
      rw [if_pos hmem]
      simp [dictGet, List.find?_cons]
  · intro cmd cmd' t' v hne htok
    rw [cacheLookup, htok]
    show (if t' ∈ CACHEABLE_PREFIXES then some (dictGet [(cmd, v)] cmd') else some none)
        = some none
    by_cases hmem : t' ∈ CACHEABLE_PREFIXES
    · rw [if_pos hmem]
      simp [dictGet, List.find?_cons, Ne.symm hne]
    · rw [if_neg hmem]
  · intro cache cmd t v htok hmem
    constructor
    · rw [cacheStore, htok]
      show (if t ∈ CACHEABLE_PREFIXES then some (dictSet cache cmd v) else some cache)
          = some cache
      rw [if_neg hmem]
    · rw [cacheLookup, htok]
      show (if t ∈ CACHEABLE_PREFIXES then some (dictGet cache cmd) else some none)
          = some none
      rw [if_neg hmem]

theorem C6_cache_keyed_on_leading_token_witness :
    cacheLookup [] "nmap -sV 127.0.0.1".data = some none ∧
    (cacheStore [] "nmap -sV 127.0.0.1".data "OK".data =
        some [("nmap -sV 127.0.0.1".data, "OK".data)] ∧
      cacheLookup [("nmap -sV 127.0.0.1".data, "OK".data)] "nmap -sV 127.0.0.1".data =
        some (some "OK".data)) ∧
    cacheLookup [("nmap -sV 127.0.0.1".data, "OK".data)] "nmap -p- 127.0.0.1".data =
      some none ∧
    (cacheStore [("nmap -sV 127.0.0.1".data, "OK".data)] "msfconsole -q".data "X".data =
        some [("nmap -sV 127.0.0.1".data, "OK".data)] ∧
      cacheLookup [("nmap -sV 127.0.0.1".data, "OK".data)] "msfconsole -q".data =
        some none) :=
  ⟨C6_cache_keyed_on_leading_token.1 "nmap -sV 127.0.0.1".data "nmap".data
      (by decide) (by decide),
   C6_cache_keyed_on_leading_token.2.1 "nmap -sV 127.0.0.1".data "nmap".data "OK".data
      (by decide) (by decide),
   C6_cache_keyed_on_leading_token.2.2.1 "nmap -sV 127.0.0.1".data
      "nmap -p- 127.0.0.1".data "nmap".data "OK".data (by decide) (by decide),
   C6_cache_keyed_on_leading_token.2.2.2 [("nmap -sV 127.0.0.1".data, "OK".data)]
      "msfconsole -q".data "msfconsole".data "X".data (by decide) (by decide)⟩

/-- Dropping a run can only shorten a list. -/
theorem length_dropWhile_le (p : Char → Bool) (l : Str) :
    (l.dropWhile p).length ≤ l.length := by
  induction l with
  | nil => simp
  | cons c t ih =>
    rw [List.dropWhile_cons]
    split
    · exact le_trans ih (by simp)
    · exact le_refl _

/-- Dropping a Prefix can only shorten a list. -/
theorem length_drop_le (l : Str) (n : Nat) : (l.drop n).length ≤ l.length := by
  rw [List.length_drop]
  omega

/-- A successful match consumes at least one character: the remaining
text is strictly shorter. -/
theorem matchPortFrom_length {s : Str} {g : Str × Str × Str} {r : Str}
    (h : matchPortFrom s = some (g, r)) : r.length < s.length := by
  cases s with
  | nil => simp [matchPortFrom] at h
  | cons c t =>
    simp only [matchPortFrom] at h
    split at h
    · exact Option.noConfusion h
    next hdig =>
      have hc : Char.isDigit c = true := by
        by_contra hcc
        exact hdig (by simp [List.takeWhile_cons, hcc])
      iterate 6
        (split at h <;> try exact Option.noConfusion h)
      rw [Option.some.injEq, Prod.mk.injEq] at h
      obtain ⟨-, hr⟩ := h
      subst hr
      have base : ((c :: t).dropWhile Char.isDigit).length ≤ t.length := by
        rw [List.dropWhile_cons, if_pos hc]
        exact length_dropWhile_le _ _
      refine lt_of_le_of_lt ?_ (by simp : t.length < (c :: t).length)
      refine le_trans ?_ base
      apply le_trans (length_drop_le _ _)
      apply le_trans (length_dropWhile_le _ _)
      apply le_trans (length_dropWhile_le _ _)
      apply le_trans (length_dropWhile_le _ _)
      apply le_trans (length_drop_le _ _)
      apply le_trans (length_dropWhile_le _ _)
      exact length_drop_le _ _

/-- Any fuel at least the scanned text's length yields the same findall
result: every scan step consumes at least one character, so the length
itself is enough fuel. -/
theorem findallPortsGo_fuel :
    ∀ (f1 : Nat) (s : Str) (b : Bool) (f2 : Nat), s.length ≤ f1 → s.length ≤ f2 →
      findallPortsGo f1 s b = findallPortsGo f2 s b := by
  intro f1
  induction f1 with
  | zero =>
    intro s b f2 h1 _
    have hs : s = [] := List.length_eq_zero.mp (Nat.le_zero.mp h1)
    subst hs
    cases f2 <;> rfl
  | succ f ih =>
    intro s b f2 h1 h2
    cases s with
    | nil => cases f2 <;> rfl
    | cons c t =>
      cases f2 with
      | zero => simp at h2
      | succ f2' =>
        simp only [findallPortsGo]
        by_cases hb : b = true
        · rw [if_pos hb, if_pos hb]
          cases hm : matchPortFrom (c :: t) with
          | none =>
            exact ih t _ f2' (by simp at h1 ⊢; omega) (by simp at h2 ⊢; omega)
          | some gr =>
            obtain ⟨g, remaining⟩ := gr
            have hlen := matchPortFrom_length hm
            show g :: findallPortsGo f remaining false =
              g :: findallPortsGo f2' remaining false
            rw [ih remaining false f2' (by simp at h1 hlen ⊢; omega)
              (by simp at h2 hlen ⊢; omega)]
        · rw [if_neg hb, if_neg hb]
          exact ih t _ f2' (by simp at h1 ⊢; omega) (by simp at h2 ⊢; omega)

/-- C5 counterexample: with an nmap tool identifier, the empty output (no
line matches the port pattern) yields the fixed no-output message, not
the no-open-ports reply the claim requires for every matchless output;
and on `80/tcp` and `open http x` split over two lines — neither line of
the claimed single-line shape — the regex still matches across the
newline and an open port is reported, so triage is not a per-line match
either. -/
theorem C5_triage_empty_output_cex :
    (triageOutput [] "nmap_quick_scan".data [] =
      ("La herramienta no produjo ninguna salida.".data, []) ∧
     triageOutput [] "nmap_quick_scan".data [] ≠
      ("Nmap no encontró puertos abiertos.".data, [])) ∧
    triageOutput "80/tcp\nopen http x".data "nmap_quick_scan".data [] =
      ("Puertos Abiertos Encontrados:\n- 80/tcp http x".data,
       ["80/tcp http x".data]) := by
  refine ⟨⟨by decide, by decide⟩, by decide⟩

/-- C5 (amended): for every output with at least one non-whitespace
character and every tool identifier containing `nmap`, triage runs the
multiline-anchored port pattern over the whole output (each match starts
at a line start, its mandatory whitespace runs may cross newlines, and
the version capture stops at the end of the line it starts on): with no
match it returns the fixed no-open-ports message, otherwise the header
plus one `- port service version` line per match, adding each match
truncated to 120 characters to the fingerprint set; and the concrete
example output produces exactly the claimed string and one fingerprint. -/
theorem C5_triage_nmap_output :
    (∀ (out tool : Str) (fps : List Str),
      "nmap".data <:+: tool → out.all isSpace = false →
      (findallPorts out = [] →
        triageOutput out tool fps = ("Nmap no encontró puertos abiertos.".data, fps)) ∧
      (findallPorts out ≠ [] →
        triageOutput out tool fps =
          ("Puertos Abiertos Encontrados:\n".data ++
             List.intercalate "\n".data ((findallPorts out).map portLine),
           (findallPorts out).foldl
             (fun acc m => fpsAdd acc (mkFingerprint m)) fps))) ∧
    (triageOutput "80/tcp open http Apache/2.4.41".data "nmap_quick_scan".data [] =
      ("Puertos Abiertos Encontrados:\n- 80/tcp http Apache/2.4.41".data,
       ["80/tcp http Apache/2.4.41".data]) ∧
     (triageOutput "80/tcp open http Apache/2.4.41".data
        "nmap_quick_scan".data []).2.length = 1) := by
  constructor
  · intro out tool fps hinf hall
    have hcond : ¬ (out.all isSpace = true) := by simp [hall]
    have hnm : decide ("nmap".data <:+: tool) = true := decide_eq_true hinf
    constructor
    · intro h0
      rw [triageOutput, if_neg hcond, if_pos hnm, if_pos h0]
    · intro h0
      rw [triageOutput, if_neg hcond, if_pos hnm, if_neg h0]
  · exact ⟨by decide, by decide⟩

theorem C5_triage_nmap_output_witness :
    triageOutput "Starting Nmap\n80/tcp open http Apache/2.4.41\ndone".data
        "nmap_full_scan".data [] =
      ("Puertos Abiertos Encontrados:\n".data ++
         List.intercalate "\n".data
           ((findallPorts "Starting Nmap\n80/tcp open http Apache/2.4.41\ndone".data).map
              portLine),
       (findallPorts "Starting Nmap\n80/tcp open http Apache/2.4.41\ndone".data).foldl
         (fun acc m => fpsAdd acc (mkFingerprint m)) []) ∧
    triageOutput "sin puertos".data "nmap_quick_scan".data [] =
      ("Nmap no encontró puertos abiertos.".data, []) :=
  ⟨(C5_triage_nmap_output.1 "Starting Nmap\n80/tcp open http Apache/2.4.41\ndone".data
      "nmap_full_scan".data [] (by decide) (by decide)).2 (by decide),
   (C5_triage_nmap_output.1 "sin puertos".data "nmap_quick_scan".data []
      (by decide) (by decide)).1 (by decide)⟩

/-- A cacheable leading token turns `_cache_lookup` into a plain dict
lookup. -/
theorem cacheLookup_eq_of_token {cache : List (Str × Str)} {cmd t : Str}
    (htok : firstToken cmd = some t) (hmem : t ∈ CACHEABLE_PREFIXES) :
    cacheLookup cache cmd = some (dictGet cache cmd) := by
  rw [cacheLookup, htok]
  show (if t ∈ CACHEABLE_PREFIXES then some (dictGet cache cmd) else some none) = _
  rw [if_pos hmem]

/-- A cacheable leading token turns `_cache_store` into a plain dict
update. -/
theorem cacheStore_eq_of_token {cache : List (Str × Str)} {cmd t v : Str}
    (htok : firstToken cmd = some t) (hmem : t ∈ CACHEABLE_PREFIXES) :
    cacheStore cache cmd v = some (dictSet cache cmd v) := by
  rw [cacheStore, htok]
  show (if t ∈ CACHEABLE_PREFIXES then some (dictSet cache cmd v) else some cache) = _
  rw [if_pos hmem]

/-- C10: `execute_action` returns the cached value with the `(CACHE)`
suffix only when the cache holds a non-empty entry for the exact payload
(`if cached:` is false for the empty string); when the stored entry is
the empty string it is treated as a miss and the command is re-executed
(a child process is spawned and its triaged output returned). -/
theorem C10_empty_cache_entry_is_miss :
    ∀ (runner : Str → Str) (st : MissionState) (a : Action) (p v : Str),
      a.tipo = some "COMANDO_SHELL".data → a.payload = some p → p ≠ [] →
      isCommandAllowed st.custom_tools p = some true →
      cacheLookup st.cache p = some (some v) →
      ((v ≠ [] → executeAction runner st a =
          ⟨v ++ "\n(CACHE)".data, st, false⟩) ∧
       (v = [] → (executeAction runner st a).ran = true ∧
          (executeAction runner st a).result =
            (triageOutput (runner p) (a.herramienta.getD "shell".data)
              st.service_fingerprints).1)) := by
  intro runner st a p v htipo hpay hp hallow hlk
  obtain ⟨t, htok, hmem⟩ : ∃ t, firstToken p = some t ∧ t ∈ CACHEABLE_PREFIXES := by
    rcases hft : firstToken p with _ | t
    · rw [cacheLookup, hft] at hlk
      exact absurd hlk (by simp)
    · refine ⟨t, rfl, ?_⟩
      by_contra hmem
      rw [cacheLookup, hft] at hlk
      simp only [if_neg hmem] at hlk
      exact absurd hlk (by simp)
  have hget : dictGet st.cache p = some v := by
    rw [cacheLookup_eq_of_token htok hmem] at hlk
    exact Option.some.inj hlk
  have hunfold : executeAction runner st a =
      (if v = [] then
        (⟨(triageOutput (runner p) (a.herramienta.getD "shell".data)
             st.service_fingerprints).1,
          { st with
              cache := dictSet st.cache p
                (triageOutput (runner p) (a.herramienta.getD "shell".data)
                  st.service_fingerprints).1
              service_fingerprints :=
                (triageOutput (runner p) (a.herramienta.getD "shell".data)
                  st.service_fingerprints).2 },
          true⟩ : ExecResult)
       else ⟨v ++ "\n(CACHE)".data, st, false⟩) := by
    rw [executeAction, hpay]
    show (if p = [] then _ else _) = _
    rw [if_neg hp, if_pos htipo, hallow]
    show (match cacheLookup st.cache p with
          | none => _
          | some (some w) => if w = [] then _ else _
          | some none => _) = _
    rw [hlk]
    show (if v = [] then _ else _) = _
    by_cases hv : v = []
    · rw [if_pos hv, if_pos hv]
      simp only [cacheStore_eq_of_token htok hmem]
    · rw [if_neg hv, if_neg hv]
  constructor
  · intro hv
    rw [hunfold, if_neg hv]
  · intro hv
    rw [hunfold, if_pos hv]
    exact ⟨rfl, rfl⟩

theorem C10_empty_cache_entry_is_miss_witness :
    (executeAction nmapOutputRunner
      { initialState "h".data with
          cache := [("nmap -sV 10.0.0.5".data, "OK".data)] }
      ⟨some "COMANDO_SHELL".data, some "nmap_quick_scan".data,
       some "nmap -sV 10.0.0.5".data⟩ =
      ⟨"OK\n(CACHE)".data,
       { initialState "h".data with
           cache := [("nmap -sV 10.0.0.5".data, "OK".data)] }, false⟩) ∧
    ((executeAction nmapOutputRunner
      { initialState "h".data with
          cache := [("nmap -sV 10.0.0.5".data, [])] }
      ⟨some "COMANDO_SHELL".data, some "nmap_quick_scan".data,
       some "nmap -sV 10.0.0.5".data⟩).ran = true ∧
     (executeAction nmapOutputRunner
      { initialState "h".data with
          cache := [("nmap -sV 10.0.0.5".data, [])] }
      ⟨some "COMANDO_SHELL".data, some "nmap_quick_scan".data,
       some "nmap -sV 10.0.0.5".data⟩).result =
       (triageOutput (nmapOutputRunner "nmap -sV 10.0.0.5".data)
         "nmap_quick_scan".data []).1) :=
  ⟨(C10_empty_cache_entry_is_miss nmapOutputRunner _ _ "nmap -sV 10.0.0.5".data "OK".data
      rfl rfl (by decide) (by decide) (by decide)).1 (by decide),
   (C10_empty_cache_entry_is_miss nmapOutputRunner _ _ "nmap -sV 10.0.0.5".data []
      rfl rfl (by decide) (by decide) (by decide)).2 rfl⟩

/-- When the parsing pipeline yields no decision (`if not decision:
break`), the loop body terminates the mission with no log append. -/
theorem missionStep_of_decision_none {jl : Str → Option Decision}
    {runner : Str → Str} {inp : CycleInput} {st : MissionState}
    (hget : getAiDecision jl inp.oracle_reply = none) :
    missionStep jl runner inp st =
      .terminated { st with commander_directive := none } := by
  rw [missionStep, hget]

/-- When the decision decodes but holds no valid structured action, the
loop body appends the format-failure event, sets the corrective last
result and continues. -/
theorem missionStep_of_invalid_action {jl : Str → Option Decision}
    {runner : Str → Str} {inp : CycleInput} {st : MissionState} {d : Decision}
    (hget : getAiDecision jl inp.oracle_reply = some d)
    (hnorm : normalizeAction d.accion_propuesta d.accion_a_ejecutar = none) :
    missionStep jl runner inp st =
      .next { st with
        commander_directive := none
        last_output := correctiveMessage
        mission_log := st.mission_log ++ [.formatFailure d] } := by
  rw [missionStep, hget]
  show (match normalizeAction d.accion_propuesta d.accion_a_ejecutar with
        | none => StepResult.next _
        | some action => _) = _
  rw [hnorm]

/-- C2 counterexample: an oracle reply with no extractable block is a
ParseError (`_extract_json_block` returns `None`, `get_ai_decision`
catches the raised `ValueError` and returns `None`), and on it the
mission loop terminates with no FormatFailure event and no corrective
message — it does not recover and loop as the claim states. -/
theorem C2_parse_error_terminates_cex :
    extractJsonBlock "pensando sin bloque".data = none ∧
    getAiDecision (fun _ => some ⟨.missing, .missing⟩) "pensando sin bloque".data =
      none ∧
    missionStep (fun _ => some ⟨.missing, .missing⟩) (fun _ => [])
        ⟨"pensando sin bloque".data, "s".data, []⟩ (initialState "objetivo".data) =
      .terminated (initialState "objetivo".data) ∧
    (initialState "objetivo".data).mission_log = [.campaignStart "objetivo".data] := by
  refine ⟨by decide, by decide, ?_, by decide⟩
  decide

/-- C2 (amended): only a reply that decodes to a decision without a valid
structured action is recovered locally — the controller appends the
format-failure event, sets the corrective last result, and continues,
with no cap on how many such consecutive failures the loop survives; a
reply with no extractable/decodable block makes `get_ai_decision` return
`None` and the loop terminates. -/
theorem C2_format_failure_recovery :
    (∀ (jl : Str → Option Decision) (runner : Str → Str) (inp : CycleInput)
        (st : MissionState) (d : Decision),
      getAiDecision jl inp.oracle_reply = some d →
      normalizeAction d.accion_propuesta d.accion_a_ejecutar = none →
      missionStep jl runner inp st = .next { st with
        commander_directive := none
        last_output := correctiveMessage
        mission_log := st.mission_log ++ [.formatFailure d] }) ∧
    (∀ (jl : Str → Option Decision) (runner : Str → Str) (inp : CycleInput)
        (st : MissionState),
      getAiDecision jl inp.oracle_reply = none →
      missionStep jl runner inp st =
        .terminated { st with commander_directive := none }) ∧
    (∀ (jl : Str → Option Decision) (runner : Str → Str)
        (inps : List CycleInput) (st : MissionState),
      (∀ inp ∈ inps, ∃ d, getAiDecision jl inp.oracle_reply = some d ∧
          normalizeAction d.accion_propuesta d.accion_a_ejecutar = none) →
      (missionLoop jl runner inps st).2 = (inps.length, false)) := by
  refine ⟨fun jl runner inp st d hget hnorm =>
      missionStep_of_invalid_action hget hnorm,
    fun jl runner inp st hget => missionStep_of_decision_none hget, ?_⟩
  intro jl runner inps
  induction inps with
  | nil => intro st _; rfl
  | cons inp rest ih =>
    intro st h
    obtain ⟨d, hget, hnorm⟩ := h inp (List.mem_cons_self inp rest)
    have hrest := ih { st with
        commander_directive := none
        last_output := correctiveMessage
        mission_log := st.mission_log ++ [.formatFailure d] }
      (fun i hi => h i (List.mem_cons_of_mem inp hi))
    rw [missionLoop, missionStep_of_invalid_action hget hnorm]
    simp [hrest]

theorem C2_format_failure_recovery_witness :
    missionStep (fun _ => some ⟨.missing, .missing⟩) (fun _ => [])
        ⟨"\x7b\"k\":1\x7d".data, "s".data, []⟩ (initialState "objetivo".data) =
      .next { initialState "objetivo".data with
        commander_directive := none
        last_output := correctiveMessage
        mission_log := (initialState "objetivo".data).mission_log ++
          [.formatFailure ⟨.missing, .missing⟩] } ∧
    (missionLoop (fun _ => some ⟨.missing, .missing⟩) (fun _ => [])
        [⟨"\x7b\"k\":1\x7d".data, "s".data, []⟩, ⟨"\x7b\"k\":1\x7d".data, "s".data, []⟩,
         ⟨"\x7b\"k\":1\x7d".data, "s".data, []⟩]
        (initialState "objetivo".data)).2 = (3, false) :=
  ⟨C2_format_failure_recovery.1 _ _ _ _ ⟨.missing, .missing⟩ rfl rfl,
   C2_format_failure_recovery.2.2 _ _ _ _
     (by
       intro inp hi
       fin_cases hi <;> exact ⟨⟨.missing, .missing⟩, rfl, rfl⟩)⟩

/-- The state carried by either loop outcome. -/
def stepState : StepResult → MissionState
  | .next st => st
  | .terminated st => st

/-- A controller state whose log already holds `_max_log_entries = 200`
entries (reachable after 200 executed actions). -/
def fullLogState : MissionState :=
  { initialState "objetivo".data with
      mission_log := List.replicate 200 (.campaignStart "objetivo".data) }

set_option maxRecDepth 8192 in
/-- C3 counterexample: with the default bound of 200 and a full log, a
FormatFailure append leaves 201 > 200 entries — only the ActionExecuted
append is followed by the truncation, so the claimed invariant fails for
the FormatFailure (and CommanderOverride) appends. -/
theorem C3_format_failure_append_overflows_cex :
    fullLogState.max_log_entries = 200 ∧
    fullLogState.mission_log.length = 200 ∧
    (stepState (missionStep (fun _ => some ⟨.missing, .missing⟩) (fun _ => [])
        ⟨"\x7b\x7d".data, "s".data, []⟩ fullLogState)).mission_log.length = 201 := by
  refine ⟨rfl, by decide, ?_⟩
  decide

/-- C3 (amended): the ActionExecuted append of the execute branch is
followed by the overflow truncation, so after it the log holds at most N
entries and the survivors are a suffix of the appended log (oldest
evicted first); appending three events through this path to a log with
bound 2 leaves exactly the last two in original order. FormatFailure and
CommanderOverride appends are not truncated. -/
theorem C3_executed_append_bounded :
    (∀ (log : List MissionEvent) (ev : MissionEvent) (n : Nat), 1 ≤ n →
      (appendBounded log ev n).length ≤ n ∧
      appendBounded log ev n <:+ log ++ [ev]) ∧
    (∀ e1 e2 e3 : MissionEvent,
      appendBounded (appendBounded (appendBounded [] e1 2) e2 2) e3 2 = [e2, e3]) := by
  constructor
  · intro log ev n hn
    rw [appendBounded]
    show (if (log ++ [ev]).length > n then tailSlice (log ++ [ev]) n
          else log ++ [ev]).length ≤ n ∧ _
    by_cases hlen : (log ++ [ev]).length > n
    · rw [if_pos hlen, tailSlice, if_neg (by omega)]
      constructor
      · rw [List.length_drop]
        omega
      · exact List.drop_suffix _ _
    · rw [if_neg hlen]
      exact ⟨by omega, List.suffix_refl _⟩
  · intro e1 e2 e3
    have h1 : appendBounded [] e1 2 = [e1] := by
      rw [appendBounded]
      show (if ([] ++ [e1]).length > 2 then _ else [] ++ [e1]) = [e1]
      rw [if_neg (by simp)]
      rfl
    have h2 : appendBounded [e1] e2 2 = [e1, e2] := by
      rw [appendBounded]
      show (if ([e1] ++ [e2]).length > 2 then _ else [e1] ++ [e2]) = [e1, e2]
      rw [if_neg (by simp)]
      rfl
    rw [h1, h2, appendBounded]
    show (if ([e1, e2] ++ [e3]).length > 2 then tailSlice ([e1, e2] ++ [e3]) 2
          else _) = [e2, e3]
    rw [if_pos (by simp), tailSlice, if_neg (by omega)]
    rfl

theorem C3_executed_append_bounded_witness :
    (appendBounded (List.replicate 200 (MissionEvent.campaignStart "objetivo".data))
        (.campaignStart "objetivo".data) 200).length ≤ 200 ∧
    appendBounded (List.replicate 200 (MissionEvent.campaignStart "objetivo".data))
        (.campaignStart "objetivo".data) 200 <:+
      List.replicate 200 (MissionEvent.campaignStart "objetivo".data) ++
        [.campaignStart "objetivo".data] :=
  C3_executed_append_bounded.1
    (List.replicate 200 (MissionEvent.campaignStart "objetivo".data))
    (.campaignStart "objetivo".data) 200 (by omega)

/-- C7: the `--once` flag is accepted but ignored — both branches of the
`__main__` dispatch call the same unbounded `mission_loop`, so a run with
`--once` is identical to a run without it; concretely, two approved
cycles both execute under `--once` instead of the claimed single cycle. -/
theorem C7_once_flag_ignored :
    (∀ (jl : Str → Option Decision) (runner : Str → Str)
        (inputs : List CycleInput) (st : MissionState),
      mainDispatch true jl runner inputs st = missionLoop jl runner inputs st ∧
      mainDispatch true jl runner inputs st = mainDispatch false jl runner inputs st) ∧
    (mainDispatch true jlNmapShell nmapOutputRunner [approveInput, approveInput]
        (initialState "10.0.0.5".data)).2 = (2, false) ∧
    ((mainDispatch true jlNmapShell nmapOutputRunner [approveInput, approveInput]
        (initialState "10.0.0.5".data)).1).mission_log.length = 3 := by
  refine ⟨fun jl runner inputs st => ⟨rfl, rfl⟩, ?_, ?_⟩
  · decide
  · decide

/-- C9: the context object built at the top of every cycle (and handed to
the oracle) carries at most the last 3 mission-log entries — a suffix of
the log, so older history is never fed back — and at most the first 50
fingerprints of the sorted fingerprint listing, each of which is an
accumulated fingerprint. -/
theorem C9_context_tail_bounded :
    ∀ st : MissionState,
      (buildContext st).resumen_mision = tailSlice st.mission_log 3 ∧
      (buildContext st).resumen_mision.length ≤ 3 ∧
      (buildContext st).resumen_mision <:+ st.mission_log ∧
      (buildContext st).huella_servicios =
        (sortStrs st.service_fingerprints).take 50 ∧
      (buildContext st).huella_servicios.length ≤ 50 ∧
      (buildContext st).huella_servicios <+: sortStrs st.service_fingerprints ∧
      (∀ fp ∈ (buildContext st).huella_servicios,
        fp ∈ st.service_fingerprints) := by
  intro st
  refine ⟨rfl, ?_, ?_, rfl, ?_, ?_, ?_⟩
  · show (tailSlice st.mission_log 3).length ≤ 3
    rw [tailSlice, if_neg (by omega)]
    rw [List.length_drop]
    omega
  · show tailSlice st.mission_log 3 <:+ st.mission_log
    rw [tailSlice, if_neg (by omega)]
    exact List.drop_suffix _ _
  · show ((sortStrs st.service_fingerprints).take 50).length ≤ 50
    rw [List.length_take]
    omega
  · exact List.take_prefix _ _
  · intro fp hfp
    have h1 : fp ∈ sortStrs st.service_fingerprints := List.mem_of_mem_take hfp
    rw [sortStrs] at h1
    exact (List.perm_insertionSort _ _).mem_iff.mp h1

theorem C9_context_tail_bounded_witness :
    "80/tcp http Apache/2.4.41".data ∈
      { initialState "x".data with
          service_fingerprints := ["80/tcp http Apache/2.4.41".data]
        : MissionState }.service_fingerprints ∧
    (buildContext { initialState "x".data with
        service_fingerprints := ["80/tcp http Apache/2.4.41".data] }).resumen_mision.length ≤ 3 :=
  ⟨(C9_context_tail_bounded { initialState "x".data with
      service_fingerprints := ["80/tcp http Apache/2.4.41".data] }).2.2.2.2.2.2
    "80/tcp http Apache/2.4.41".data (by decide),
   (C9_context_tail_bounded { initialState "x".data with
      service_fingerprints := ["80/tcp http Apache/2.4.41".data] }).2.1⟩

end Demiurgo
